import Mathlib

/-!
Shallow embedding of the Post-App-Plus application (src/main.py): a Streamlit
application over a SQLite store with tables users, posts, likes, comments and
messages.  The inline Streamlit handlers are embedded as pure functions over an
explicit `DB` state; SQLite AUTOINCREMENT ids are modelled by explicit
counters, `CURRENT_TIMESTAMP` by a `Nat` second count supplied by the caller,
and the bcrypt primitive by an abstract verification function passed as a
parameter.  SQLite `ORDER BY` on a single key is modelled as a stable merge
sort of the rows in table-scan (rowid-ascending, i.e. insertion) order, which
is the observed behaviour of the engine on these queries.
-/

namespace PostApp

/-- Row of the `users` table: id PK AUTOINCREMENT, username UNIQUE NOT NULL,
pw_hash NOT NULL, is_admin DEFAULT 0 (src/main.py lines 66-71). -/
structure User where
  id : Nat
  username : String
  pw_hash : String
  is_admin : Bool
  deriving DecidableEq

/-- Row of the `posts` table (src/main.py lines 72-79). -/
structure Post where
  id : Nat
  author_id : Nat
  content : String
  image_url : Option String
  created : Nat
  deriving DecidableEq

/-- Row of the `likes` table, with `UNIQUE(user_id, post_id)`
(src/main.py lines 80-85). -/
structure Like where
  id : Nat
  user_id : Nat
  post_id : Nat
  deriving DecidableEq

/-- Row of the `comments` table (src/main.py lines 86-92). -/
structure Comment where
  id : Nat
  user_id : Nat
  post_id : Nat
  content : String
  created : Nat
  deriving DecidableEq

/-- Row of the `messages` table (src/main.py lines 93-99). -/
structure Message where
  id : Nat
  sender_id : Nat
  receiver_id : Nat
  content : String
  created : Nat
  deriving DecidableEq

/-- The SQLite database `community.db`: the five tables (rows kept in
insertion order, as a table scan returns them) plus the AUTOINCREMENT
counter of each table. -/
structure DB where
  users : List User
  posts : List Post
  likes : List Like
  comments : List Comment
  messages : List Message
  next_user_id : Nat
  next_post_id : Nat
  next_like_id : Nat
  next_comment_id : Nat
  next_message_id : Nat
  deriving DecidableEq

/-- The freshly created database: all tables empty, AUTOINCREMENT at 1
(src/main.py lines 65-101). -/
def initDB : DB := ⟨[], [], [], [], [], 1, 1, 1, 1, 1⟩

/-- The authenticated identity kept in `st.session_state.user`
(src/main.py lines 167-171): id, username, is_admin. -/
structure Ident where
  id : Nat
  username : String
  is_admin : Bool
  deriving DecidableEq

/-- Registration handler (src/main.py lines 155-163):
`INSERT INTO users (username, pw_hash) VALUES (?, ?)`; the UNIQUE constraint
on `username` raises `sqlite3.IntegrityError` when a row with that username
already exists, which the handler reports as "username already exists".
Returns the new state and `true` on success, the unchanged state and `false`
when the duplicate-username error was reported.  `is_admin` takes its column
default `0`. -/
def register (db : DB) (username pw_hash : String) : DB × Bool :=
  if db.users.any (fun u => u.username == username) then
    (db, false)
  else
    ({ db with
        users := db.users ++ [⟨db.next_user_id, username, pw_hash, false⟩],
        next_user_id := db.next_user_id + 1 }, true)

/-- Login handler (src/main.py lines 164-175):
`SELECT id, pw_hash, is_admin FROM users WHERE username = ?` then
`bcrypt.checkpw(password, row.pw_hash)`; on success the session identity is
`{id: row[0], username: username, is_admin: bool(row[2])}`, otherwise the
error "wrong account or password" is shown.  `checkpw` abstracts the bcrypt
verification primitive. -/
def authenticate (checkpw : String → String → Bool) (db : DB)
    (username password : String) : Option Ident :=
  match db.users.find? (fun u => u.username == username) with
  | none => none
  | some row => if checkpw password row.pw_hash then
      some ⟨row.id, username, row.is_admin⟩
    else
      none

/-- Post-creation insert (src/main.py lines 210-212):
`INSERT INTO posts (author_id, content, image_url) VALUES (?, ?, ?)` with
`created` taking `CURRENT_TIMESTAMP` (the `now` argument). -/
def create_post (db : DB) (author_id : Nat) (content : String)
    (image_url : Option String) (now : Nat) : DB :=
  { db with
      posts := db.posts ++ [⟨db.next_post_id, author_id, content, image_url, now⟩],
      next_post_id := db.next_post_id + 1 }

/-- Outcome of pressing the Like button: either the row was inserted, or the
UNIQUE(user_id, post_id) constraint fired and the handler showed the
"already liked" warning. -/
inductive LikeOutcome where
  | inserted
  | duplicate
  deriving DecidableEq

/-- Like-button handler (src/main.py lines 229-236):
`INSERT INTO likes (user_id, post_id) VALUES (?, ?)`; the
`UNIQUE(user_id, post_id)` constraint raises `sqlite3.IntegrityError` when
the pair is already present, caught and reported as the "already liked"
warning (reject policy, no row change). -/
def toggle_like (db : DB) (user_id post_id : Nat) : DB × LikeOutcome :=
  if db.likes.any (fun l => l.user_id == user_id && l.post_id == post_id) then
    (db, LikeOutcome.duplicate)
  else
    ({ db with
        likes := db.likes ++ [⟨db.next_like_id, user_id, post_id⟩],
        next_like_id := db.next_like_id + 1 }, LikeOutcome.inserted)

/-- `SELECT COUNT(*) FROM likes WHERE post_id = ?` (src/main.py line 239). -/
def count_likes (db : DB) (post_id : Nat) : Nat :=
  (db.likes.filter (fun l => l.post_id == post_id)).length

/-- Comment insert (src/main.py lines 261-262):
`INSERT INTO comments (user_id, post_id, content) VALUES (?, ?, ?)`. -/
def add_comment (db : DB) (user_id post_id : Nat) (content : String)
    (now : Nat) : DB :=
  { db with
      comments := db.comments ++ [⟨db.next_comment_id, user_id, post_id, content, now⟩],
      next_comment_id := db.next_comment_id + 1 }

/-- Delete-post cascade (src/main.py lines 245-247):
`DELETE FROM posts WHERE id = ?`, `DELETE FROM comments WHERE post_id = ?`,
`DELETE FROM likes WHERE post_id = ?`, committed together. -/
def delete_post (db : DB) (post_id : Nat) : DB :=
  { db with
      posts := db.posts.filter (fun p => !(p.id == post_id)),
      comments := db.comments.filter (fun cm => !(cm.post_id == post_id)),
      likes := db.likes.filter (fun l => !(l.post_id == post_id)) }

/-- A row of the posts feed (src/main.py line 219): post id, author username,
content, image_url, created. -/
structure PostView where
  id : Nat
  author : String
  content : String
  image_url : Option String
  created : Nat
  deriving DecidableEq

/-- The join `posts JOIN users ON posts.author_id = users.id` before sorting:
the outer scan of `posts` in rowid order, each row paired with the (unique,
since `users.id` is the primary key) matching user row. -/
def joinPosts (db : DB) : List PostView :=
  db.posts.filterMap (fun p =>
    (db.users.find? (fun u => u.id == p.author_id)).map
      (fun u => ⟨p.id, u.username, p.content, p.image_url, p.created⟩))

/-- Feed query (src/main.py line 219):
`SELECT posts.id, users.username, posts.content, posts.image_url,
posts.created FROM posts JOIN users ON posts.author_id = users.id
ORDER BY posts.created DESC`.  The single-key `ORDER BY` is modelled as a
stable sort of the scan rows on `created` descending: the query has no
secondary sort key, so rows with equal `created` keep their scan order. -/
def list_posts (db : DB) : List PostView :=
  (joinPosts db).mergeSort (fun a b => decide (b.created ≤ a.created))

/-- A row of the comment listing under a post (src/main.py line 255):
commenter username, content, created. -/
structure CommentView where
  username : String
  content : String
  created : Nat
  deriving DecidableEq

/-- Comment query (src/main.py line 255):
`SELECT users.username, comments.content, comments.created FROM comments
JOIN users ON comments.user_id = users.id WHERE comments.post_id = ?
ORDER BY comments.created ASC`, modelled like `list_posts` as a stable sort
of the scan rows, here on `created` ascending. -/
def list_comments (db : DB) (post_id : Nat) : List CommentView :=
  (((db.comments.filter (fun cm => cm.post_id == post_id)).filterMap (fun cm =>
    (db.users.find? (fun u => u.id == cm.user_id)).map
      (fun u => ⟨u.username, cm.content, cm.created⟩))).mergeSort
    (fun a b => decide (a.created ≤ b.created)))

/-- Delete-post handler with its guard (src/main.py lines 243-248): the
delete button is rendered, and hence the cascade runs, only when the session
user's username equals the author username shown on the feed row; for any
other session user (admin or not) the button does not exist and the state is
unchanged. -/
def delete_attempt (db : DB) (sess : Ident) (post_id : Nat) : DB :=
  match db.posts.find? (fun p => p.id == post_id) with
  | none => db
  | some p =>
    match db.users.find? (fun u => u.id == p.author_id) with
    | none => db
    | some a =>
      if sess.username == a.username then delete_post db post_id else db

/-- Recipient choices of the direct-message form (src/main.py line 185):
`[r[0] for r in SELECT username FROM users]` with the current session user's
username filtered out. -/
def recipient_options (db : DB) (current_username : String) : List String :=
  (db.users.map (fun u => u.username)).filter (fun n => !(n == current_username))

/-- Modelled from the spec: `send_message` is called by the message handler
(src/main.py line 190) but nowhere defined in the repository source; per the
spec, `send_message(sender_id, receiver_id, content)` requires `content`
non-empty and enforces no self-message restriction, inserting a `messages`
row with a server-assigned timestamp. -/
def send_message (db : DB) (sender_id receiver_id : Nat) (content : String)
    (now : Nat) : DB :=
  if content = "" then db
  else
    { db with
        messages := db.messages ++
          [⟨db.next_message_id, sender_id, receiver_id, content, now⟩],
        next_message_id := db.next_message_id + 1 }

/-- A row of the message history (src/main.py line 195): message id, sender
username, receiver username, content, created. -/
structure MsgView where
  id : Nat
  sender : String
  receiver : String
  content : String
  created : Nat
  deriving DecidableEq

/-- Modelled from the spec: `get_messages` is called by the message history
view (src/main.py line 195) but nowhere defined in the repository source; per
the spec, `list_messages(user_id)` returns the messages where
`sender_id = user_id OR receiver_id = user_id`, joined with sender and
receiver usernames, ordered by `created_at` descending (stable sort as in
`list_posts`). -/
def get_messages (db : DB) (user_id : Nat) : List MsgView :=
  (((db.messages.filter
      (fun m => m.sender_id == user_id || m.receiver_id == user_id)).filterMap
    (fun m =>
      match db.users.find? (fun u => u.id == m.sender_id),
            db.users.find? (fun u => u.id == m.receiver_id) with
      | some s, some r => some ⟨m.id, s.username, r.username, m.content, m.created⟩
      | _, _ => none)).mergeSort
    (fun a b => decide (b.created ≤ a.created)))

/-- The user-reachable store-mutating operations of the application, each
carrying the inputs its handler reads. -/
inductive Op where
  | reg (username pw_hash : String)
  | login (username password : String)
  | post (sess_id : Nat) (content : String) (image_url : Option String) (now : Nat)
  | like (sess_id post_id : Nat)
  | comment (sess_id post_id : Nat) (content : String) (now : Nat)
  | delete (sess : Ident) (post_id : Nat)
  | message (sess_id receiver_id : Nat) (content : String) (now : Nat)
  deriving DecidableEq

/-- One handler invocation.  Logging in writes no row; the post form inserts
only when the content is non-empty (`if submitted and content`,
src/main.py line 208), likewise the comment button
(`... and comment_input`, src/main.py line 260); deletion goes through the
author guard. -/
def step (db : DB) : Op → DB
  | Op.reg u pw => (register db u pw).1
  | Op.login _ _ => db
  | Op.post sid content img now =>
      if content = "" then db else create_post db sid content img now
  | Op.like sid pid => (toggle_like db sid pid).1
  | Op.comment sid pid content now =>
      if content = "" then db else add_comment db sid pid content now
  | Op.delete sess pid => delete_attempt db sess pid
  | Op.message sid rid content now => send_message db sid rid content now

/-- Running a sequence of handler invocations from a state. -/
def run (db : DB) (ops : List Op) : DB := ops.foldl step db


/-- Number of `likes` rows carrying a given (user_id, post_id) pair. -/
def pair_likes (db : DB) (user_id post_id : Nat) : Nat :=
  (db.likes.filter (fun l => l.user_id == user_id && l.post_id == post_id)).length

theorem pair_likes_step_le (db : DB) (op : Op) (u p : Nat)
    (h : pair_likes db u p ≤ 1) : pair_likes (step db op) u p ≤ 1 := by
  cases op with
  | reg un pw =>
    simp only [step, register]
    split
    · exact h
    · simpa [pair_likes] using h
  | login un pw => exact h
  | post sid content img now =>
    simp only [step]
    split
    · exact h
    · simpa [pair_likes, create_post] using h
  | like sid pid =>
    simp only [step, toggle_like]
    split
    · exact h
    · rename_i hn
      rw [Bool.not_eq_true, List.any_eq_false] at hn
      by_cases hup : sid = u ∧ pid = p
      · have h0 : db.likes.filter
            (fun l => l.user_id == u && l.post_id == p) = [] := by
          rw [List.filter_eq_nil_iff]
          intro l hl hcontra
          exact hn l hl (by simpa [hup.1, hup.2] using hcontra)
        simp [pair_likes, h0, hup.1, hup.2]
      · have hrow : ((⟨db.next_like_id, sid, pid⟩ : Like).user_id == u &&
            (⟨db.next_like_id, sid, pid⟩ : Like).post_id == p) = false := by
          rcases not_and_or.mp hup with hne | hne <;> simp [hne]
        simpa [pair_likes, hrow] using h
  | comment sid pid content now =>
    simp only [step]
    split
    · exact h
    · simpa [pair_likes, add_comment] using h
  | delete sess pid =>
    simp only [step, delete_attempt]
    split
    · exact h
    · split
      · exact h
      · split
        · have hsub : ((db.likes.filter (fun l => !(l.post_id == pid))).filter
              (fun l => l.user_id == u && l.post_id == p)).Sublist
              (db.likes.filter (fun l => l.user_id == u && l.post_id == p)) :=
            (List.filter_sublist db.likes).filter
              (fun l => l.user_id == u && l.post_id == p)
          simp only [pair_likes, delete_post]
          exact le_trans hsub.length_le h
        · exact h
  | message sid rid content now =>
    simp only [step, send_message]
    split
    · exact h
    · simpa [pair_likes] using h

theorem pair_likes_run_le (ops : List Op) (db : DB) (u p : Nat)
    (h : pair_likes db u p ≤ 1) : pair_likes (run db ops) u p ≤ 1 := by
  induction ops generalizing db with
  | nil => exact h
  | cons op ops ih => exact ih (step db op) (pair_likes_step_le db op u p h)

/-- C1: after any sequence of handler invocations from the fresh database, at
most one `likes` row exists for each (user, post) pair; once the pair is
present, pressing Like again raises the UNIQUE-constraint error reported as
the "already liked" warning (reject policy), changes no row and leaves the
like count of the post unchanged. -/
theorem like_unique_reject (ops : List Op) (u p : Nat) :
    pair_likes (run initDB ops) u p ≤ 1 ∧
    ((run initDB ops).likes.any
        (fun l => l.user_id == u && l.post_id == p) = true →
      toggle_like (run initDB ops) u p = (run initDB ops, LikeOutcome.duplicate) ∧
      count_likes (toggle_like (run initDB ops) u p).1 p =
        count_likes (run initDB ops) p) := by
  refine ⟨pair_likes_run_le ops initDB u p (by simp [pair_likes, initDB]), ?_⟩
  intro hdup
  constructor
  · simp [toggle_like, hdup]
  · simp [toggle_like, hdup]

theorem like_unique_reject_witness :
    pair_likes (run initDB [Op.like 1 1, Op.like 1 1]) 1 1 ≤ 1 ∧
    toggle_like (run initDB [Op.like 1 1, Op.like 1 1]) 1 1 =
      (run initDB [Op.like 1 1, Op.like 1 1], LikeOutcome.duplicate) := by
  have h := like_unique_reject [Op.like 1 1, Op.like 1 1] 1 1
  exact ⟨h.1, (h.2 (by decide)).1⟩

theorem register_dup (db : DB) (u pw : String)
    (h : ∃ x ∈ db.users, x.username = u) :
    register db u pw = (db, false) := by
  have hb : (db.users.any fun x => x.username == u) = true := by
    obtain ⟨x, hx, hxu⟩ := h
    exact List.any_eq_true.mpr ⟨x, hx, by simpa using hxu⟩
  unfold register
  simp only [hb]
  simp

/-- C5: registering a username not yet present succeeds and appends exactly
one `users` row for it, carrying the `is_admin` column default `false`; an
immediately repeated registration of the same username hits the UNIQUE
constraint, is reported as "username already exists", changes nothing, and
exactly one row with that username remains. -/
theorem register_twice_unique (db : DB) (u pw1 pw2 : String)
    (h : db.users.any (fun x => x.username == u) = false) :
    (register db u pw1).2 = true ∧
    ((register db u pw1).1.users.filter (fun x => x.username == u)).length = 1 ∧
    (∀ x ∈ (register db u pw1).1.users, x.username = u → x.is_admin = false) ∧
    (register (register db u pw1).1 u pw2).2 = false ∧
    (register (register db u pw1).1 u pw2).1 = (register db u pw1).1 ∧
    ((register (register db u pw1).1 u pw2).1.users.filter
      (fun x => x.username == u)).length = 1 := by
  have h' : ∀ x ∈ db.users, ¬ x.username = u := by
    intro x hx
    simpa using List.any_eq_false.mp h x hx
  have hfil : db.users.filter (fun x => x.username == u) = [] := by
    rw [List.filter_eq_nil_iff]
    intro a ha
    simpa using h' a ha
  have husers1 : (register db u pw1).1.users
      = db.users ++ [⟨db.next_user_id, u, pw1, false⟩] := by
    simp [register, h]
  have hsucc1 : (register db u pw1).2 = true := by
    simp [register, h]
  have hex : ∃ x ∈ (register db u pw1).1.users, x.username = u :=
    ⟨⟨db.next_user_id, u, pw1, false⟩, by rw [husers1]; simp, rfl⟩
  have hreg2 := register_dup (register db u pw1).1 u pw2 hex
  refine ⟨hsucc1, ?_, ?_, ?_, ?_, ?_⟩
  · rw [husers1]; simp [hfil]
  · intro x hx hxu
    rw [husers1] at hx
    simp only [List.mem_append, List.mem_singleton] at hx
    rcases hx with hx | hx
    · exact absurd hxu (h' x hx)
    · rw [hx]
  · rw [hreg2]
  · rw [hreg2]
  · rw [hreg2, husers1]; simp [hfil]

theorem register_twice_unique_witness :
    (register initDB "alice" "h1").2 = true ∧
    (register (register initDB "alice" "h1").1 "alice" "h2").2 = false := by
  have h := register_twice_unique initDB "alice" "h1" "h2" (by decide)
  exact ⟨h.1, h.2.2.2.1⟩

/-- C2: deleting a post that is present removes it together with every
`comments` and `likes` row referencing it: afterwards its like count is 0,
its comment listing is empty, and no feed row carries its id. -/
theorem delete_post_cascade (db : DB) (p : Nat)
    (h : db.posts.any (fun q => q.id == p) = true) :
    count_likes (delete_post db p) p = 0 ∧
    list_comments (delete_post db p) p = [] ∧
    ∀ v ∈ list_posts (delete_post db p), v.id ≠ p := by
  refine ⟨?_, ?_, ?_⟩
  · simp [count_likes, delete_post, List.filter_filter]
  · simp [list_comments, delete_post, List.filter_filter]
  · intro v hv
    simp only [list_posts, List.mem_mergeSort, joinPosts, List.mem_filterMap,
      delete_post] at hv
    obtain ⟨q, hq, hmap⟩ := hv
    rw [List.mem_filter] at hq
    obtain ⟨hq1, hq2⟩ := hq
    rw [Option.map_eq_some'] at hmap
    obtain ⟨usr, hfind, hgv⟩ := hmap
    have hid : v.id = q.id := by rw [← hgv]
    simp only [Bool.not_eq_eq_eq_not, Bool.not_true, beq_eq_false_iff_ne,
      ne_eq] at hq2
    rw [hid]
    exact hq2

theorem delete_post_cascade_witness :
    count_likes (delete_post (create_post initDB 1 "hi" none 0) 1) 1 = 0 ∧
    list_comments (delete_post (create_post initDB 1 "hi" none 0) 1) 1 = [] := by
  have h := delete_post_cascade (create_post initDB 1 "hi" none 0) 1 (by decide)
  exact ⟨h.1, h.2.1⟩

/-- C10: the delete-post cascade touches nothing outside it: the `users` and
`messages` tables are untouched, and every post with a different id and
every like or comment referencing a different post id keeps its presence in
its table. -/
theorem delete_post_frame (db : DB) (p : Nat) :
    (delete_post db p).users = db.users ∧
    (delete_post db p).messages = db.messages ∧
    (∀ q : Post, q.id ≠ p → (q ∈ (delete_post db p).posts ↔ q ∈ db.posts)) ∧
    (∀ l : Like, l.post_id ≠ p → (l ∈ (delete_post db p).likes ↔ l ∈ db.likes)) ∧
    (∀ cm : Comment, cm.post_id ≠ p →
      (cm ∈ (delete_post db p).comments ↔ cm ∈ db.comments)) := by
  refine ⟨rfl, rfl, ?_, ?_, ?_⟩ <;> intro x hx <;>
    simp [delete_post, List.mem_filter, hx]

theorem delete_post_frame_witness :
    ((⟨2, 1, "b", none, 0⟩ : Post) ∈
        (delete_post
          ⟨[], [⟨1, 1, "a", none, 0⟩, ⟨2, 1, "b", none, 0⟩],
            [], [], [], 1, 3, 1, 1, 1⟩ 1).posts ↔
      (⟨2, 1, "b", none, 0⟩ : Post) ∈
        (⟨[], [⟨1, 1, "a", none, 0⟩, ⟨2, 1, "b", none, 0⟩],
          [], [], [], 1, 3, 1, 1, 1⟩ : DB).posts) := by
  have h := delete_post_frame
    ⟨[], [⟨1, 1, "a", none, 0⟩, ⟨2, 1, "b", none, 0⟩], [], [], [], 1, 3, 1, 1, 1⟩ 1
  exact h.2.2.1 ⟨2, 1, "b", none, 0⟩ (by decide)

/-- C3 counterexample: a session whose `is_admin` flag is true but whose
username differs from the post author's cannot delete the post: the
delete-post handler leaves the store unchanged (the delete button is only
rendered for the author, src/main.py line 243), contradicting the claim that
an admin can delete a post authored by anyone. -/
theorem delete_admin_counterexample :
    delete_attempt
        ⟨[⟨1, "alice", "h", false⟩, ⟨2, "admin1", "h", true⟩],
          [⟨1, 1, "hi", none, 0⟩], [], [], [], 3, 2, 1, 1, 1⟩
        ⟨2, "admin1", true⟩ 1 =
      ⟨[⟨1, "alice", "h", false⟩, ⟨2, "admin1", "h", true⟩],
        [⟨1, 1, "hi", none, 0⟩], [], [], [], 3, 2, 1, 1, 1⟩ := by
  rfl

/-- C3 amended: deletion of a post is performed exactly when the acting
session's username equals the post author's username; any other session —
admin or not — leaves the store unchanged (no delete button and no Forbidden
error exist for it). -/
theorem delete_guard_author_only (db : DB) (sess : Ident) (pid : Nat)
    (post : Post) (hp : db.posts.find? (fun q => q.id == pid) = some post)
    (a : User) (ha : db.users.find? (fun x => x.id == post.author_id) = some a) :
    (sess.username = a.username → delete_attempt db sess pid = delete_post db pid) ∧
    (sess.username ≠ a.username → delete_attempt db sess pid = db) := by
  constructor
  · intro h
    simp [delete_attempt, hp, ha, h]
  · intro h
    simp [delete_attempt, hp, ha, h]

theorem sorted_mergeSort_key {α : Type} (key : α → Nat) (l : List α) :
    (l.mergeSort (fun a b => decide (key b ≤ key a))).Pairwise
      (fun a b => key b ≤ key a) := by
  have h : (l.mergeSort (fun a b => decide (key b ≤ key a))).Pairwise
      (fun a b => (fun a b => decide (key b ≤ key a)) a b = true) :=
    List.sorted_mergeSort
      (by intro a b c h1 h2; simp only [decide_eq_true_eq] at *; omega)
      (by intro a b; simp only [Bool.or_eq_true, decide_eq_true_eq]; omega) l
  exact h.imp (by intro a b hb; simpa using hb)

theorem mergeSort_filter_stable {α : Type} (le : α → α → Bool) (p : α → Bool)
    (l : List α)
    (htrans : ∀ a b c, le a b → le b c → le a c)
    (htotal : ∀ a b, le a b || le b a)
    (hp : ∀ a b, p a = true → p b = true → le a b = true) :
    (l.mergeSort le).filter p = l.filter p := by
  have hpw : (l.filter p).Pairwise (fun a b => le a b = true) := by
    apply List.pairwise_of_forall_mem_list
    intro a ha b hb
    rw [List.mem_filter] at ha hb
    exact hp a b ha.2 hb.2
  have hstable := List.sublist_mergeSort htrans htotal hpw (List.filter_sublist l)
  have hself : (l.filter p).filter p = l.filter p := by
    rw [List.filter_eq_self]
    intro a ha
    exact (List.mem_filter.mp ha).2
  have hsub2 : (l.filter p).Sublist ((l.mergeSort le).filter p) := by
    have h2 := hstable.filter p
    rwa [hself] at h2
  have hperm : ((l.mergeSort le).filter p).Perm (l.filter p) :=
    (List.mergeSort_perm l le).filter p
  exact (hsub2.eq_of_length hperm.length_eq.symm).symm

/-- C4 counterexample: two posts sharing the same `created` timestamp come
out of the feed query in id-ascending (insertion) order, not id-descending:
the query `ORDER BY posts.created DESC` has no secondary sort key. -/
theorem feed_tie_order_counterexample :
    (list_posts
        ⟨[⟨1, "alice", "h", false⟩],
          [⟨1, 1, "a", none, 5⟩, ⟨2, 1, "b", none, 5⟩],
          [], [], [], 2, 3, 1, 1, 1⟩).map (fun v => v.id) = [1, 2] ∧
      (list_posts
        ⟨[⟨1, "alice", "h", false⟩],
          [⟨1, 1, "a", none, 5⟩, ⟨2, 1, "b", none, 5⟩],
          [], [], [], 2, 3, 1, 1, 1⟩).map (fun v => v.id) ≠ [2, 1] := by
  have hs : (joinPosts
      ⟨[⟨1, "alice", "h", false⟩],
        [⟨1, 1, "a", none, 5⟩, ⟨2, 1, "b", none, 5⟩],
        [], [], [], 2, 3, 1, 1, 1⟩).Pairwise
      (fun a b => (fun a b : PostView => decide (b.created ≤ a.created)) a b = true) := by
    decide
  have heq : list_posts
      ⟨[⟨1, "alice", "h", false⟩],
        [⟨1, 1, "a", none, 5⟩, ⟨2, 1, "b", none, 5⟩],
        [], [], [], 2, 3, 1, 1, 1⟩ = joinPosts
      ⟨[⟨1, "alice", "h", false⟩],
        [⟨1, 1, "a", none, 5⟩, ⟨2, 1, "b", none, 5⟩],
        [], [], [], 2, 3, 1, 1, 1⟩ :=
    List.mergeSort_of_sorted hs
  rw [heq]
  exact ⟨rfl, by decide⟩

/-- C4 amended: the feed is sorted by `created` descending for every
insertion sequence; rows sharing a timestamp keep their table-scan order,
so when the stored posts have ascending ids (as AUTOINCREMENT insertion
produces) same-timestamp feed rows are ordered by id ascending, not
descending. -/
theorem list_posts_sorted_stable (db : DB) :
    (list_posts db).Pairwise (fun a b => b.created ≤ a.created) ∧
    (∀ t : Nat, (list_posts db).filter (fun v => v.created == t)
        = (joinPosts db).filter (fun v => v.created == t)) ∧
    (db.posts.Pairwise (fun a b => a.id < b.id) →
      ∀ t : Nat, ((list_posts db).filter (fun v => v.created == t)).Pairwise
        (fun a b => a.id < b.id)) := by
  have hstable : ∀ t : Nat, (list_posts db).filter (fun v => v.created == t)
      = (joinPosts db).filter (fun v => v.created == t) := by
    intro t
    apply mergeSort_filter_stable
    · intro a b c h1 h2
      simp only [decide_eq_true_eq] at *
      omega
    · intro a b
      simp only [Bool.or_eq_true, decide_eq_true_eq]
      omega
    · intro a b ha hb
      simp only [beq_iff_eq] at ha hb
      simp [ha, hb]
  refine ⟨sorted_mergeSort_key (fun v : PostView => v.created) (joinPosts db),
    hstable, ?_⟩
  intro hpw t
  rw [hstable t]
  have hjoin : (joinPosts db).Pairwise (fun a b => a.id < b.id) := by
    unfold joinPosts
    rw [List.pairwise_filterMap]
    refine hpw.imp ?_
    intro a b hab x hx y hy
    rw [Option.mem_def, Option.map_eq_some'] at hx hy
    obtain ⟨u1, hf1, hx1⟩ := hx
    obtain ⟨u2, hf2, hy1⟩ := hy
    rw [← hx1, ← hy1]
    exact hab
  exact hjoin.filter _

theorem list_posts_sorted_stable_witness :
    ((list_posts
        ⟨[⟨1, "alice", "h", false⟩],
          [⟨1, 1, "a", none, 5⟩, ⟨2, 1, "b", none, 5⟩, ⟨3, 1, "c", none, 9⟩],
          [], [], [], 2, 4, 1, 1, 1⟩).filter (fun v => v.created == 5)).Pairwise
      (fun a b => a.id < b.id) := by
  have h := list_posts_sorted_stable
    ⟨[⟨1, "alice", "h", false⟩],
      [⟨1, 1, "a", none, 5⟩, ⟨2, 1, "b", none, 5⟩, ⟨3, 1, "c", none, 9⟩],
      [], [], [], 2, 4, 1, 1, 1⟩
  exact h.2.2 (by decide) 5

theorem delete_guard_author_only_witness :
    delete_attempt
        ⟨[⟨1, "alice", "h", false⟩], [⟨1, 1, "hi", none, 0⟩],
          [], [], [], 2, 2, 1, 1, 1⟩
        ⟨1, "alice", false⟩ 1 =
      delete_post
        ⟨[⟨1, "alice", "h", false⟩], [⟨1, 1, "hi", none, 0⟩],
          [], [], [], 2, 2, 1, 1, 1⟩ 1 := by
  have h := delete_guard_author_only
    ⟨[⟨1, "alice", "h", false⟩], [⟨1, 1, "hi", none, 0⟩], [], [], [], 2, 2, 1, 1, 1⟩
    ⟨1, "alice", false⟩ 1 ⟨1, 1, "hi", none, 0⟩ rfl ⟨1, "alice", "h", false⟩ rfl
  exact h.1 rfl

/-- C6: authentication establishes an identity (the row id, the given
username, the row's is_admin) if and only if a `users` row with exactly the
given username exists and the given password verifies against that row's
stored hash; otherwise no identity is produced, and the login handler never
writes to the store. -/
theorem authenticate_ok (checkpw : String → String → Bool) (db : DB)
    (u pw : String)
    (huniq : db.users.Pairwise (fun a b => a.username ≠ b.username)) :
    ((authenticate checkpw db u pw).isSome = true ↔
      ∃ row, row ∈ db.users ∧ row.username = u ∧ checkpw pw row.pw_hash = true) ∧
    (∀ i, authenticate checkpw db u pw = some i →
      ∃ row, row ∈ db.users ∧ row.username = u ∧ checkpw pw row.pw_hash = true ∧
        i = ⟨row.id, u, row.is_admin⟩) ∧
    step db (Op.login u pw) = db := by
  refine ⟨?_, ?_, rfl⟩
  · unfold authenticate
    split
    · rename_i hf
      rw [List.find?_eq_none] at hf
      apply iff_of_false
      · simp
      · rintro ⟨row, hr, hru, hc⟩
        exact (hf row hr) (by simpa using hru)
    · rename_i row hf
      have hmem := List.mem_of_find?_eq_some hf
      have hun : row.username = u := by simpa using List.find?_some hf
      by_cases hc : checkpw pw row.pw_hash = true
      · rw [if_pos hc]
        exact iff_of_true rfl ⟨row, hmem, hun, hc⟩
      · rw [if_neg hc]
        apply iff_of_false
        · simp
        · rintro ⟨row2, hr2, hru2, hc2⟩
          have hsymm : Symmetric (fun a b : User => a.username ≠ b.username) := by
            intro a b hab he
            exact hab he.symm
          have hrr : row = row2 := by
            by_contra hne
            exact (huniq.forall hsymm hmem hr2 hne) (hun.trans hru2.symm)
          rw [← hrr] at hc2
          exact hc hc2
  · intro i hi
    unfold authenticate at hi
    split at hi
    · exact absurd hi (by simp)
    · rename_i row hf
      have hmem := List.mem_of_find?_eq_some hf
      have hun : row.username = u := by simpa using List.find?_some hf
      by_cases hc : checkpw pw row.pw_hash = true
      · rw [if_pos hc] at hi
        exact ⟨row, hmem, hun, hc, (Option.some_inj.mp hi).symm⟩
      · rw [if_neg hc] at hi
        exact absurd hi (by simp)

theorem authenticate_ok_witness :
    ((authenticate (fun pw h => pw == h)
        ⟨[⟨1, "alice", "pw1", false⟩], [], [], [], [], 2, 1, 1, 1, 1⟩
        "alice" "pw1").isSome = true ↔
      ∃ row, row ∈ (⟨[⟨1, "alice", "pw1", false⟩], [], [], [], [],
          2, 1, 1, 1, 1⟩ : DB).users ∧
        row.username = "alice" ∧
        (fun (pw h : String) => pw == h) "pw1" row.pw_hash = true) := by
  have h := authenticate_ok (fun pw h => pw == h)
    ⟨[⟨1, "alice", "pw1", false⟩], [], [], [], [], 2, 1, 1, 1, 1⟩
    "alice" "pw1" (by simp)
  exact h.1

/-- C7: the message history of a user consists exactly of the messages in
which that user is the sender or the receiver — never a message between two
other users — each joined with the sender's and receiver's usernames, and the
listing is ordered by creation time descending. -/
theorem get_messages_spec (db : DB) (uid : Nat) :
    (get_messages db uid).Pairwise (fun a b => b.created ≤ a.created) ∧
    (∀ v : MsgView, v ∈ get_messages db uid ↔
      ∃ m, m ∈ db.messages ∧ (m.sender_id = uid ∨ m.receiver_id = uid) ∧
        ∃ s, db.users.find? (fun x => x.id == m.sender_id) = some s ∧
        ∃ r, db.users.find? (fun x => x.id == m.receiver_id) = some r ∧
          v = ⟨m.id, s.username, r.username, m.content, m.created⟩) := by
  constructor
  · exact sorted_mergeSort_key (fun v : MsgView => v.created) _
  · intro v
    simp only [get_messages, List.mem_mergeSort, List.mem_filterMap,
      List.mem_filter]
    constructor
    · rintro ⟨m, ⟨hm, hcond⟩, hmap⟩
      refine ⟨m, hm, by simpa using hcond, ?_⟩
      cases hfs : db.users.find? (fun x => x.id == m.sender_id) with
      | none =>
        rw [hfs] at hmap
        exact absurd hmap (by simp)
      | some s =>
        cases hfr : db.users.find? (fun x => x.id == m.receiver_id) with
        | none =>
          rw [hfs, hfr] at hmap
          exact absurd hmap (by simp)
        | some r =>
          rw [hfs, hfr] at hmap
          exact ⟨s, rfl, r, rfl, (Option.some_inj.mp hmap).symm⟩
    · rintro ⟨m, hm, hcond, s, hfs, r, hfr, hv⟩
      refine ⟨m, ⟨hm, by simpa using hcond⟩, ?_⟩
      rw [hfs, hfr, hv]

theorem get_messages_spec_witness :
    (⟨1, "alice", "bob", "hi", 3⟩ : MsgView) ∈ get_messages
      ⟨[⟨1, "alice", "h", false⟩, ⟨2, "bob", "h", false⟩],
        [], [], [], [⟨1, 1, 2, "hi", 3⟩], 3, 1, 1, 1, 2⟩ 1 := by
  have h := get_messages_spec
    ⟨[⟨1, "alice", "h", false⟩, ⟨2, "bob", "h", false⟩],
      [], [], [], [⟨1, 1, 2, "hi", 3⟩], 3, 1, 1, 1, 2⟩ 1
  exact (h.2 ⟨1, "alice", "bob", "hi", 3⟩).mpr
    ⟨⟨1, 1, 2, "hi", 3⟩, by simp, Or.inl rfl,
      ⟨1, "alice", "h", false⟩, rfl, ⟨2, "bob", "h", false⟩, rfl, rfl⟩

/-- C8 counterexample: the direct-message form cannot address the acting
user: the recipient selectbox (src/main.py line 185) filters the acting
user's own username out of the choices, so although "alice" is a registered
user, "alice" is not among alice's recipient options — contradicting the
claim that no restriction prevents sender and receiver from being the same
user. -/
theorem self_recipient_counterexample :
    ((⟨[⟨1, "alice", "h", false⟩, ⟨2, "bob", "h", false⟩], [], [], [], [],
        3, 1, 1, 1, 1⟩ : DB).users.any (fun x => x.username == "alice")) = true ∧
    recipient_options
        ⟨[⟨1, "alice", "h", false⟩, ⟨2, "bob", "h", false⟩], [], [], [], [],
          3, 1, 1, 1, 1⟩ "alice" = ["bob"] ∧
    "alice" ∉ recipient_options
        ⟨[⟨1, "alice", "h", false⟩, ⟨2, "bob", "h", false⟩], [], [], [], [],
          3, 1, 1, 1, 1⟩ "alice" := by
  refine ⟨rfl, rfl, ?_⟩
  decide

/-- C8 amended: `send_message` stores a row exactly when the content is
non-empty and itself imposes no self-message restriction (it stores the row
even when sender and receiver coincide), but the recipient list offered by
the message form excludes the acting user's own username, so a self-message
cannot be selected through the UI. -/
theorem send_message_spec (db : DB) (s r : Nat) (content : String) (now : Nat)
    (cur : String) :
    (content = "" → send_message db s r content now = db) ∧
    (content ≠ "" → (send_message db s r content now).messages
        = db.messages ++ [⟨db.next_message_id, s, r, content, now⟩]) ∧
    (∀ nm ∈ recipient_options db cur, nm ≠ cur) := by
  refine ⟨?_, ?_, ?_⟩
  · intro h
    simp [send_message, h]
  · intro h
    simp [send_message, h]
  · intro nm hnm
    rw [recipient_options, List.mem_filter] at hnm
    simpa using hnm.2

theorem send_message_spec_witness :
    (send_message
        ⟨[⟨1, "alice", "h", false⟩, ⟨2, "bob", "h", false⟩], [], [], [], [],
          3, 1, 1, 1, 1⟩ 1 1 "hi" 0).messages
      = (⟨[⟨1, "alice", "h", false⟩, ⟨2, "bob", "h", false⟩], [], [], [], [],
          3, 1, 1, 1, 1⟩ : DB).messages ++ [⟨1, 1, 1, "hi", 0⟩] := by
  have h := send_message_spec
    ⟨[⟨1, "alice", "h", false⟩, ⟨2, "bob", "h", false⟩], [], [], [], [],
      3, 1, 1, 1, 1⟩ 1 1 "hi" 0 "alice"
  exact h.2.1 (by simp)

theorem step_messages (db : DB) (op : Op) (m : Message)
    (h : m ∈ db.messages) : m ∈ (step db op).messages := by
  cases op with
  | reg un pw =>
    simp only [step, register]
    split <;> exact h
  | login un pw => exact h
  | post sid content img now =>
    simp only [step]
    split
    · exact h
    · exact h
  | like sid pid =>
    simp only [step, toggle_like]
    split <;> exact h
  | comment sid pid content now =>
    simp only [step]
    split
    · exact h
    · exact h
  | delete sess pid =>
    simp only [step, delete_attempt]
    split
    · exact h
    · split
      · exact h
      · split
        · exact h
        · exact h
  | message sid rid content now =>
    simp only [step, send_message]
    split
    · exact h
    · simp only [List.mem_append]
      exact Or.inl h

/-- C9: no operation of the application deletes a `messages` row: across any
sequence of handler invocations (register, login, post, like, comment,
delete post, send message), every message present before remains present
after. -/
theorem messages_persist (db : DB) (ops : List Op) (m : Message)
    (h : m ∈ db.messages) : m ∈ (run db ops).messages := by
  induction ops generalizing db with
  | nil => exact h
  | cons op ops ih => exact ih (step db op) (step_messages db op m h)

theorem messages_persist_witness :
    (⟨1, 1, 2, "hi", 0⟩ : Message) ∈
      (run ⟨[], [], [], [], [⟨1, 1, 2, "hi", 0⟩], 1, 1, 1, 1, 2⟩
        [Op.delete ⟨1, "alice", true⟩ 1]).messages :=
  messages_persist ⟨[], [], [], [], [⟨1, 1, 2, "hi", 0⟩], 1, 1, 1, 1, 2⟩
    [Op.delete ⟨1, "alice", true⟩ 1] ⟨1, 1, 2, "hi", 0⟩ (by simp)

end PostApp
